import Mathlib

/-! Verification of the path-exploration strategies of `p4pktgen/core/strategy.py`.

The file shallowly embeds the module's classes as Lean definitions:

* `ParserGraphVisitor.preprocess_edges` — header-stack overrun pruning for
  parser-path enumeration;
* `ControlGraphVisitor.generate_test_case` — the bounded test-case generation
  loop, with its external collaborators (constraint solver, test-case writer,
  table-consolidation collaborator, statistics sink) modelled as counters in an
  explicit state record and per-iteration result oracles;
* `ControlGraphVisitor.visit_result` — the shared stopping policy;
* `PathCoverageGraphVisitor` / `EdgeCoverageGraphVisitor` — `visit` /
  `backtrack` and the edge-coverage bookkeeping (`done_edges`, `edge_visits`,
  least-visited-first edge ordering).

Mutable collaborator state (solver push/pop/reset calls, submitted constraint
batches, written test cases, the global test-case counter, table registrations)
is threaded through an explicit `St` record so that frame effects and the
checkpoint push/pop discipline are provable.  Nondeterministic collaborator
answers (quick-solve outcome, per-iteration solver classification, whether a
further VL-extraction constraint could be added) are supplied as oracle fields
of `VisitInput`.  The unbounded `while True` loop is embedded with explicit
fuel; a run that exhausts its fuel is distinguished from a normal return.
-/

/-! ## Result and traversal-signal enums -/

/-- Classification of a path's solver outcome (`TestPathResult` in
`p4pktgen/core/test_cases.py`): `SUCCESS`, `NO_PACKET_FOUND`, and the other,
opaque solver-reported kinds collapsed into `OTHER`. -/
inductive TestPathResult
  | SUCCESS
  | NO_PACKET_FOUND
  | OTHER
deriving DecidableEq

/-- Traversal control signal (`VisitResult` in `p4pktgen/util/graph.py`). -/
inductive VisitResult
  | CONTINUE
  | BACKTRACK
  | ABORT
deriving DecidableEq

/-- Embedding of `record_path_result` (strategy.py lines 12-15). -/
def record_path_result (result : TestPathResult) (is_complete_control_path : Bool) : Bool :=
  if result != TestPathResult.SUCCESS || is_complete_control_path then true else false

/-- Modelled from the spec: `record_test_case` is defined in
`p4pktgen/core/test_cases.py`, which is outside this repository slice; only its
callers are in `strategy.py`.  Spec §4.3 recording policy: "a result is
recorded iff it is `SUCCESS` on a complete path, or any non-`SUCCESS` outcome.
A satisfiable, incomplete result is never recorded.  The same predicate gates
both continued output emission and result-map/coverage updates." -/
def record_test_case (result : TestPathResult) (is_complete_control_path : Bool) : Bool :=
  (result == TestPathResult.SUCCESS && is_complete_control_path) ||
    result != TestPathResult.SUCCESS

/-- Embedding of `ge_than_not_none` (strategy.py lines 18-21): `False` when
either side is `None`, otherwise `lhs >= rhs`. -/
def ge_than_not_none (lhs rhs : Option Nat) : Bool :=
  match lhs, rhs with
  | some l, some r => decide (l ≥ r)
  | _, _ => false

/-! ## Parser-path enumeration strategy -/

/-- A parser-graph edge: source and destination state names, and whether the
edge is a `ParserErrorTransition` (the `isinstance` test at strategy.py
line 53). -/
structure PEdge where
  src : String
  dst : String
  isError : Bool
deriving DecidableEq

/-- The slice of the HLIR that `ParserGraphVisitor` consults: per-parser-state
header-stack extraction events (`state.header_stack_extracts`) and each header
stack's declared size (`hlir.get_header_stack(stack).size`). -/
structure Hlir where
  header_stack_extracts : String → List String
  stack_size : String → Nat

namespace ParserGraphVisitor

/-- Embedding of `ParserGraphVisitor.count` (strategy.py lines 30-34).  The
Python code increments a `defaultdict(int)` entry per extraction event of a
non-sink state; here the running dictionary is represented by the list of
extraction events accumulated so far (the count of a stack is its number of
occurrences in the list). -/
def count (hlir : Hlir) (stack_counts : List String) (state_name : String) : List String :=
  if state_name ≠ "sink" then stack_counts ++ hlir.header_stack_extracts state_name
  else stack_counts

/-- The nodes visited along a path so far: the first edge's source followed by
every edge's destination (strategy.py lines 40-43); empty for the empty
path. -/
def pathNodes (pathPfx : List PEdge) : List String :=
  match pathPfx with
  | [] => []
  | e :: _ => e.src :: pathPfx.map (fun d => d.dst)

/-- Embedding of `ParserGraphVisitor.preprocess_edges` (strategy.py lines
36-56): count the extractions for each header stack along the path so far; if
any stack's count exceeds its declared size, keep only the error-transition
onward edges, otherwise return the onward edges unchanged.  Iterating the
Python dictionary's `(stack, count)` pairs is represented by iterating the
accumulated event list: the distinct keys of the dictionary are exactly the
elements of that list, each paired with its occurrence count. -/
def preprocess_edges (hlir : Hlir) (pathPfx onward_edges : List PEdge) : List PEdge :=
  let stack_counts := (pathNodes pathPfx).foldl (count hlir) []
  if stack_counts.any (fun stack => decide (hlir.stack_size stack < stack_counts.count stack))
  then onward_edges.filter (fun edge => edge.isError)
  else onward_edges

end ParserGraphVisitor

/-- Extraction events contributed by one node, for the spec-side count: a
non-sink parser state contributes its declared extraction events, the virtual
sink node has none. -/
def nodeExtracts (hlir : Hlir) (n : String) : List String :=
  if n ≠ "sink" then hlir.header_stack_extracts n else []

/-- Spec-side accumulated extraction count of stack `s`: the sum, over every
node along the prefix (start node included), of that node's extraction events
for `s`. -/
def specStackCount (hlir : Hlir) (pathPfx : List PEdge) (s : String) : Nat :=
  ((ParserGraphVisitor.pathNodes pathPfx).map (fun n => (nodeExtracts hlir n).count s)).sum

/-- The fold of `ParserGraphVisitor.count` along a node list counts, for each
stack, exactly the per-node extraction events summed over the list. -/
theorem count_foldl_count (hlir : Hlir) (s : String) :
    ∀ (l : List String) (acc : List String),
      ((l.foldl (ParserGraphVisitor.count hlir) acc).count s)
        = acc.count s + (l.map (fun n => (nodeExtracts hlir n).count s)).sum := by
  intro l
  induction l with
  | nil => intro acc; simp
  | cons n l ih =>
    intro acc
    simp only [List.foldl_cons, List.map_cons, List.sum_cons, ih]
    unfold ParserGraphVisitor.count nodeExtracts
    by_cases h : n ≠ "sink"
    · simp [h, List.count_append]
      omega
    · simp [h]

/-- The overrun test in `preprocess_edges` holds iff some stack's spec-side
accumulated count exceeds its declared size. -/
theorem overrun_any_iff (hlir : Hlir) (pathPfx : List PEdge) :
    (((ParserGraphVisitor.pathNodes pathPfx).foldl (ParserGraphVisitor.count hlir) []).any
        (fun stack =>
          decide (hlir.stack_size stack
            < ((ParserGraphVisitor.pathNodes pathPfx).foldl
                (ParserGraphVisitor.count hlir) []).count stack)) = true)
      ↔ (∃ s, hlir.stack_size s < specStackCount hlir pathPfx s) := by
  constructor
  · intro h
    rcases List.any_eq_true.mp h with ⟨s, _, hs⟩
    refine ⟨s, ?_⟩
    have := of_decide_eq_true hs
    rw [count_foldl_count hlir s _ []] at this
    simpa [specStackCount] using this
  · rintro ⟨s, hs⟩
    have hcount : (((ParserGraphVisitor.pathNodes pathPfx).foldl
        (ParserGraphVisitor.count hlir) []).count s) = specStackCount hlir pathPfx s := by
      rw [count_foldl_count hlir s _ []]
      simp [specStackCount]
    refine List.any_eq_true.mpr ⟨s, ?_, ?_⟩
    · exact List.count_pos_iff.mp (by rw [hcount]; omega)
    · exact decide_eq_true (by rw [hcount]; exact hs)

/-- HLIR for the C2 scenario: parser states `start`, `s1`, `s2` each extract
one element of header stack `hs`, whose declared size is 2. -/
def c2Hlir : Hlir :=
  { header_stack_extracts := fun n => if n = "start" || n = "s1" || n = "s2" then ["hs"] else []
  , stack_size := fun _ => 2 }

/-- First prefix edge of the C2 scenario. -/
def c2e1 : PEdge := ⟨"start", "s1", false⟩

/-- Second prefix edge of the C2 scenario. -/
def c2e2 : PEdge := ⟨"s1", "s2", false⟩

/-- The error onward edge of the C2 scenario. -/
def c2err : PEdge := ⟨"s2", "sink", true⟩

/-- The ordinary onward edge of the C2 scenario. -/
def c2norm : PEdge := ⟨"s2", "s3", false⟩

/-- C2: `ParserGraphVisitor.preprocess_edges` sums per-header-stack extraction
events over every node along the prefix including its start node; if any
stack's accumulated count exceeds its declared size it returns exactly the
error-transition subset of the onward edges (empty if there are none), and
otherwise it returns the onward edges unchanged.  In particular, for a stack
of declared size 2, a prefix with 3 extractions of that stack, and onward
edges consisting of one error edge and one normal edge, it returns exactly the
error edge. -/
theorem parser_preprocess_edges_spec (hlir : Hlir) (pathPfx onward_edges : List PEdge) :
    ((∃ s, hlir.stack_size s < specStackCount hlir pathPfx s) →
        ParserGraphVisitor.preprocess_edges hlir pathPfx onward_edges
          = onward_edges.filter (fun edge => edge.isError)) ∧
    ((∀ s, specStackCount hlir pathPfx s ≤ hlir.stack_size s) →
        ParserGraphVisitor.preprocess_edges hlir pathPfx onward_edges = onward_edges) ∧
    ParserGraphVisitor.preprocess_edges c2Hlir [c2e1, c2e2] [c2err, c2norm] = [c2err] := by
  refine ⟨?_, ?_, by decide⟩
  · intro hex
    unfold ParserGraphVisitor.preprocess_edges
    rw [if_pos ((overrun_any_iff hlir pathPfx).mpr hex)]
  · intro hall
    unfold ParserGraphVisitor.preprocess_edges
    rw [if_neg]
    intro hany
    rcases (overrun_any_iff hlir pathPfx).mp hany with ⟨s, hs⟩
    exact absurd (hall s) (by omega)

/-- Witness for C2: the overrun hypothesis holds concretely in the scenario
(3 extractions of a stack of size 2), and the theorem then computes the
error-only filtering at that input. -/
theorem parser_preprocess_edges_spec_witness :
    ParserGraphVisitor.preprocess_edges c2Hlir [c2e1, c2e2] [c2err, c2norm]
      = [c2err, c2norm].filter (fun edge => edge.isError) :=
  (parser_preprocess_edges_spec c2Hlir [c2e1, c2e2] [c2err, c2norm]).1 ⟨"hs", by decide⟩

/-! ## Control-graph exploration: state, configuration and oracles -/

/-- A control-graph edge.  Edges carry a source node, a destination node and a
discriminating identifier so that distinct edges between the same nodes remain
distinct; they are hashable/stable map keys in the source, so decidable
equality is all the embedding needs. -/
structure CEdge where
  src : Nat
  dst : Nat
  eid : Nat
deriving DecidableEq

/-- Observable interaction counters of the external solver collaborator:
checkpoint pushes (`path_solver.push`), pops (`path_solver.pop`), full resets
(`path_solver.solver.reset`) and submitted path-constraint batches
(`path_solver.add_path_constraints`). -/
structure Solver where
  pushes : Nat
  pops : Nat
  resets : Nat
  constraint_batches : Nat
deriving DecidableEq

/-- The mutable world threaded through the exploration: the solver's
interaction counters; `Statistics().num_test_cases`; counts of test cases
written via the test-case writer and of registrations with the
table-consolidation collaborator; the visitor's `success_path_count` and
`results` map (keyed by control path — the visitor's parser path is fixed, so
only the control-path component of the source's key varies);
`Statistics().stats_per_control_path_edge` with `num_covered_edges`; and the
edge-coverage visitor's `done_edges` set and `edge_visits` counts. -/
structure St where
  solver : Solver
  num_test_cases : Nat
  writes : Nat
  table_adds : Nat
  success_path_count : Nat
  results_map : List (List CEdge × TestPathResult)
  stats_per_edge : CEdge → Nat
  num_covered_edges : Nat
  done_edges : List CEdge
  edge_visits : CEdge → Nat

/-- The configuration options `generate_test_case` and `visit_result` read.
`None` models a Python `None` (option unset); the extraction-length-variation
option is only passed through to the solver collaborator and is absorbed by
the `vl` oracle of `VisitInput`. -/
structure Cfg where
  num_test_cases : Option Nat
  max_test_cases_per_path : Option Nat
  do_consolidate_tables : Bool
  incremental : Bool
  max_paths_per_parser_path : Option Nat
deriving DecidableEq

/-- One `visit` call's inputs: the control path, its completeness flag, and
oracles for the collaborator answers — `quick` for `try_quick_solve`, `gen i`
for the classification produced by `path_solver.generate_test_case` in loop
iteration `i`, `vl i` for whether `constrain_last_extract_vl_lengths` could
add a further bound in iteration `i` — plus fuel bounding the `while True`
loop. -/
structure VisitInput where
  control_path : List CEdge
  is_complete : Bool
  quick : TestPathResult
  gen : Nat → TestPathResult
  vl : Nat → Bool
  fuel : Nat

/-- How a `generate_test_case` call ends: a normal return carrying its
`TestPathResult`; an assertion failure; fuel exhaustion (the embedding's stand-
in for non-termination of the unbounded loop); or an out-of-range read of
`results[0]`. -/
inductive GenOutcome
  | ok (r : TestPathResult)
  | assertFail
  | outOfFuel
  | indexError
deriving DecidableEq

/-- The solver collaborator's `push`. -/
def solverPush (st : St) : St :=
  { st with solver := { st.solver with pushes := st.solver.pushes + 1 } }

/-- The solver collaborator's `pop`. -/
def solverPop (st : St) : St :=
  { st with solver := { st.solver with pops := st.solver.pops + 1 } }

/-- The solver collaborator's full `reset`. -/
def solverReset (st : St) : St :=
  { st with solver := { st.solver with resets := st.solver.resets + 1 } }

/-- Submission of one batch of path constraints (`add_path_constraints`). -/
def addPathConstraints (st : St) : St :=
  { st with solver := { st.solver with constraint_batches := st.solver.constraint_batches + 1 } }

/-- Writing one test case: `test_case_writer.write` followed by
`Statistics().num_test_cases += 1` (strategy.py lines 168-169). -/
def writeTestCase (st : St) : St :=
  { st with writes := st.writes + 1, num_test_cases := st.num_test_cases + 1 }

/-- One registration with the table-consolidation collaborator
(`table_solver.add_path`, strategy.py lines 151-157). -/
def tableAddPath (st : St) : St :=
  { st with table_adds := st.table_adds + 1 }

/-- Python equality `n == m` between an `int` and a possibly-`None` value:
`False` against `None`, numeric comparison otherwise (the `==` comparisons at
strategy.py lines 175-176, where the comment notes `None`/0 represents no
maximum). -/
def optEqNat (m : Option Nat) (n : Nat) : Bool :=
  match m with
  | some k => n == k
  | none => false

/-! ## ControlGraphVisitor -/

namespace ControlGraphVisitor

/-- Embedding of the `while True` generation loop of `generate_test_case`
(strategy.py lines 116-185), with explicit fuel and the iteration index `i`
selecting the oracle answers.  Per iteration: `solve_path` (no modelled
effect); if the path is complete, checkpoint the solver and fix randomization
constraints; obtain the iteration's classification; pop the randomization
checkpoint; append the classification to `results`; then apply the loop's exit
tests in source order. -/
def genLoop (cfg : Cfg) (inp : VisitInput) :
    Nat → Nat → List TestPathResult → St → Option (List TestPathResult × St)
  | 0, _, _, _ => none
  | fuel + 1, i, results, st =>
    let fix_random := inp.is_complete
    let st1 := if fix_random then solverPush st else st
    let result := inp.gen i
    let st2 := if fix_random then solverPop st1 else st1
    let results1 := results ++ [result]
    if !record_test_case result inp.is_complete then some (results1, st2)
    else if cfg.do_consolidate_tables then some (results1, tableAddPath st2)
    else
      let st3 := writeTestCase st2
      if optEqNat cfg.num_test_cases st3.num_test_cases
          || optEqNat cfg.max_test_cases_per_path results1.length
          || result == TestPathResult.NO_PACKET_FOUND then some (results1, st3)
      else if !inp.vl i && cfg.max_test_cases_per_path == some 0 then some (results1, st3)
      else genLoop cfg inp fuel (i + 1) results1 st3

/-- Embedding of `ControlGraphVisitor.generate_test_case` (strategy.py lines
79-194): submit path constraints; quick-solve, returning early (without any
solver reset) on a satisfiable incomplete path after the line-99 assertion;
check the line-114 consolidation/per-path-cap assertion; run the generation
loop; take the first accumulated result; reset the solver unless incremental
solving is configured. -/
def generate_test_case (cfg : Cfg) (inp : VisitInput) (st : St) : GenOutcome × St :=
  let st0 := addPathConstraints st
  let result := inp.quick
  if result == TestPathResult.SUCCESS then
    if record_path_result result inp.is_complete
        || record_test_case result inp.is_complete then (GenOutcome.assertFail, st0)
    else (GenOutcome.ok result, st0)
  else if cfg.do_consolidate_tables && !(cfg.max_test_cases_per_path == some 1) then
    (GenOutcome.assertFail, st0)
  else
    match genLoop cfg inp inp.fuel 0 [] st0 with
    | none => (GenOutcome.outOfFuel, st0)
    | some (results, st1) =>
      match results.head? with
      | none => (GenOutcome.indexError, st1)
      | some r =>
        let st2 := if !cfg.incremental then solverReset st1 else st1
        (GenOutcome.ok r, st2)

/-- Association-list update used to model `self.results[path] = result`. -/
def mapSet (m : List (List CEdge × TestPathResult)) (k : List CEdge) (v : TestPathResult) :
    List (List CEdge × TestPathResult) :=
  match m with
  | [] => [(k, v)]
  | (k', v') :: rest => if k' = k then (k, v) :: rest else (k', v') :: mapSet rest k v

/-- One per-edge statistics bump of `record_stats` (strategy.py lines
200-203): count a 0-to-nonzero transition in `num_covered_edges` and increment
the edge's `stats_per_control_path_edge` counter. -/
def bumpPathEdgeStat (s : St) (e : CEdge) : St :=
  let s' := if s.stats_per_edge e == 0
    then { s with num_covered_edges := s.num_covered_edges + 1 } else s
  { s' with stats_per_edge := fun e' =>
    if e' = e then s'.stats_per_edge e + 1 else s'.stats_per_edge e' }

/-- Embedding of `ControlGraphVisitor.record_stats` (strategy.py lines
196-234) restricted to the state the claims observe: on `SUCCESS` over a
complete path, bump every path edge's `stats_per_control_path_edge` counter
and count 0-to-nonzero transitions in `num_covered_edges`; when
`record_path_result` holds, upsert the results map (the disagreement case is
logged in the source but not fatal) and, on `SUCCESS` over a complete path,
increment `success_path_count`.  Running averages, `Statistics().stats`
tallies and throttled log emission have no state any claim mentions and are
not modelled. -/
def record_stats (control_path : List CEdge) (is_complete_control_path : Bool)
    (result : TestPathResult) (st : St) : St :=
  let stA :=
    if result == TestPathResult.SUCCESS && is_complete_control_path then
      control_path.foldl bumpPathEdgeStat st
    else st
  if record_path_result result is_complete_control_path then
    let stB := { stA with results_map := mapSet stA.results_map control_path result }
    if result == TestPathResult.SUCCESS && is_complete_control_path then
      { stB with success_path_count := stB.success_path_count + 1 }
    else stB
  else stA

/-- Embedding of `ControlGraphVisitor.visit_result` (strategy.py lines
237-249): `ABORT` when the global test-case counter has reached the configured
global cap, else `BACKTRACK` when this parser path's success count has reached
the per-parser-path cap, else `BACKTRACK` on a non-`SUCCESS` result, else
`CONTINUE`. -/
def visit_result (cfg : Cfg) (st : St) (result : TestPathResult) : VisitResult :=
  if ge_than_not_none (some st.num_test_cases) cfg.num_test_cases then VisitResult.ABORT
  else if ge_than_not_none (some st.success_path_count) cfg.max_paths_per_parser_path then
    VisitResult.BACKTRACK
  else if result != TestPathResult.SUCCESS then VisitResult.BACKTRACK
  else VisitResult.CONTINUE

end ControlGraphVisitor

/-! ## PathCoverageGraphVisitor -/

namespace PathCoverageGraphVisitor

/-- Embedding of `PathCoverageGraphVisitor.preprocess_edges` (strategy.py
lines 253-254): the identity on the candidate edges. -/
def preprocess_edges (_path : List CEdge) (edges : List CEdge) : List CEdge := edges

/-- Embedding of `PathCoverageGraphVisitor.visit` (strategy.py lines 256-260):
push one solver checkpoint, generate, record statistics, and answer with the
shared stopping policy.  `none` models an abnormal end inside
`generate_test_case` (assertion failure or the unbounded loop's
non-termination), in which Python the remaining statements never run. -/
def visit (cfg : Cfg) (inp : VisitInput) (st : St) : Option (VisitResult × St) :=
  let stP := solverPush st
  match ControlGraphVisitor.generate_test_case cfg inp stP with
  | (GenOutcome.ok result, st1) =>
    let st2 := ControlGraphVisitor.record_stats inp.control_path inp.is_complete result st1
    some (ControlGraphVisitor.visit_result cfg st2 result, st2)
  | _ => none

/-- Embedding of `PathCoverageGraphVisitor.backtrack` (strategy.py lines
262-263): pop one solver checkpoint. -/
def backtrack (st : St) : St := solverPop st

end PathCoverageGraphVisitor

/-! ## EdgeCoverageGraphVisitor -/

/-- Stable ascending insertion by a numeric key: the inserted element goes in
front of the first element whose key is greater than or equal to its own.
Under the right fold of `sortedByKey`, an element is inserted after all
elements that follow it in the input have been, so it lands before every
equal-key element that follows it — equal-key elements keep their input
order. -/
def insertByKey (key : CEdge → Nat) (a : CEdge) : List CEdge → List CEdge
  | [] => [a]
  | b :: l => if key a ≤ key b then a :: b :: l else b :: insertByKey key a l

/-- Stable ascending sort by a numeric key, the embedding of Python's stable
`sorted(..., key=...)`: ascending by key, and elements with equal keys keep
their relative input order (proved below as `sortedByKey_stable`). -/
def sortedByKey (key : CEdge → Nat) (l : List CEdge) : List CEdge :=
  l.foldr (insertByKey key) []

namespace EdgeCoverageGraphVisitor

/-- Embedding of `EdgeCoverageGraphVisitor.preprocess_edges` (strategy.py
lines 278-291): split the candidates into done and not-done groups preserving
order, sort each group ascending by absolute visit count, list the not-done
group first, and reverse the whole list to compensate for the engine's LIFO
push. -/
def preprocess_edges (st : St) (edges : List CEdge) : List CEdge :=
  let part := edges.foldl
    (fun (p : List CEdge × List CEdge) e =>
      if e ∈ st.done_edges then (p.1 ++ [e], p.2) else (p.1, p.2 ++ [e]))
    ([], [])
  let least_visits_order :=
    sortedByKey st.edge_visits part.2 ++ sortedByKey st.edge_visits part.1
  least_visits_order.reverse

/-- Set-insertion into the `done_edges` set (`self.done_edges.add`). -/
def doneAdd (done : List CEdge) (e : CEdge) : List CEdge :=
  if e ∈ done then done else e :: done

/-- One visit-count increment, `self.edge_visits[edge] += 1` (strategy.py
line 313). -/
def bumpVisit (s : St) (e : CEdge) : St :=
  { s with edge_visits := fun e' => if e' = e then s.edge_visits e + 1 else s.edge_visits e' }

/-- Embedding of the backward walk at strategy.py lines 319-322: visit the
given edges in order (the caller passes the reversed path without its last
edge) and mark an edge done when every outgoing edge of its destination node
is already done. -/
def markDone (graph : Nat → List CEdge) : List CEdge → List CEdge → List CEdge
  | [], done => done
  | e :: rest, done =>
    markDone graph rest
      (if (graph e.dst).all (fun ce => decide (ce ∈ done)) then doneAdd done e else done)

/-- Embedding of `EdgeCoverageGraphVisitor.visit` (strategy.py lines 293-324):
push one solver checkpoint; skip with `BACKTRACK` when the path's last edge is
done and every path edge has been visited; otherwise generate and record, then
— when the outcome is a recordable `SUCCESS` (which entails a complete path,
the line-310 assertion) — bump every path edge's visit count, mark the final
edge done and run the backward propagation walk; finally answer with the
shared stopping policy. -/
def visit (graph : Nat → List CEdge) (cfg : Cfg) (inp : VisitInput) (st : St) :
    Option (VisitResult × St) :=
  let stP := solverPush st
  match inp.control_path.getLast? with
  | none => none
  | some last =>
    if decide (last ∈ stP.done_edges)
        && inp.control_path.all (fun e => decide (0 < stP.edge_visits e)) then
      some (VisitResult.BACKTRACK, stP)
    else
      match ControlGraphVisitor.generate_test_case cfg inp stP with
      | (GenOutcome.ok result, st1) =>
        let st2 := ControlGraphVisitor.record_stats inp.control_path inp.is_complete result st1
        if record_test_case result inp.is_complete && result == TestPathResult.SUCCESS then
          if !inp.is_complete then none
          else
            let st3 := inp.control_path.foldl bumpVisit st2
            let st4 := { st3 with done_edges := doneAdd st3.done_edges last }
            let st5 := { st4 with
              done_edges := markDone graph inp.control_path.dropLast.reverse st4.done_edges }
            some (ControlGraphVisitor.visit_result cfg st5 result, st5)
        else some (ControlGraphVisitor.visit_result cfg st2 result, st2)
      | _ => none

/-- Embedding of `EdgeCoverageGraphVisitor.backtrack` (strategy.py lines
326-327): pop one solver checkpoint. -/
def backtrack (st : St) : St := solverPop st

end EdgeCoverageGraphVisitor

/-- An alternating sequence of `visit`/`backtrack` calls on the path-coverage
visitor: each input is visited and the branch then abandoned.  `none` when
some visit ends abnormally. -/
def pcRun (cfg : Cfg) : List VisitInput → St → Option St
  | [], st => some st
  | inp :: rest, st =>
    match PathCoverageGraphVisitor.visit cfg inp st with
    | none => none
    | some (_, st1) => pcRun cfg rest (PathCoverageGraphVisitor.backtrack st1)

/-- An alternating sequence of `visit`/`backtrack` calls on the edge-coverage
visitor. -/
def ecRun (graph : Nat → List CEdge) (cfg : Cfg) : List VisitInput → St → Option St
  | [], st => some st
  | inp :: rest, st =>
    match EdgeCoverageGraphVisitor.visit graph cfg inp st with
    | none => none
    | some (_, st1) => ecRun graph cfg rest (EdgeCoverageGraphVisitor.backtrack st1)

/-! ## General list helpers -/

/-- A fold preserves any predicate preserved by each step. -/
theorem foldl_preserve {β γ : Type} (f : γ → β → γ) (P : γ → Prop)
    (h : ∀ c b, P c → P (f c b)) : ∀ (l : List β) (c : γ), P c → P (l.foldl f c) := by
  intro l
  induction l with
  | nil => intro c hc; simpa using hc
  | cons b l ih => intro c hc; simpa using ih (f c b) (h c b hc)

/-- Inserting by key yields a permutation of consing. -/
theorem insertByKey_perm (key : CEdge → Nat) (a : CEdge) :
    ∀ l : List CEdge, (insertByKey key a l).Perm (a :: l) := by
  intro l
  induction l with
  | nil => simp [insertByKey]
  | cons b l ih =>
    unfold insertByKey
    by_cases h : key a ≤ key b
    · rw [if_pos h]
    · rw [if_neg h]
      exact (ih.cons b).trans (List.Perm.swap a b l)

/-- Membership after key-insertion. -/
theorem insertByKey_mem (key : CEdge → Nat) (a : CEdge) (l : List CEdge) (x : CEdge) :
    x ∈ insertByKey key a l ↔ x = a ∨ x ∈ l := by
  have := (insertByKey_perm key a l).mem_iff (a := x)
  simpa using this

/-- Key-insertion preserves ascending-by-key ordering. -/
theorem insertByKey_pairwise (key : CEdge → Nat) (a : CEdge) :
    ∀ l : List CEdge, l.Pairwise (fun x y => key x ≤ key y) →
      (insertByKey key a l).Pairwise (fun x y => key x ≤ key y) := by
  intro l
  induction l with
  | nil => intro _; simp [insertByKey]
  | cons b l ih =>
    intro hp
    rcases List.pairwise_cons.mp hp with ⟨hb, hl⟩
    unfold insertByKey
    by_cases h : key a ≤ key b
    · rw [if_pos h]
      refine List.pairwise_cons.mpr ⟨?_, hp⟩
      intro x hx
      rcases List.mem_cons.mp hx with rfl | hx
      · omega
      · exact le_trans h (hb x hx)
    · rw [if_neg h]
      refine List.pairwise_cons.mpr ⟨?_, ih hl⟩
      intro x hx
      rcases (insertByKey_mem key a l x).mp hx with rfl | hx
      · omega
      · exact hb x hx

/-- The stable key-sort permutes its input. -/
theorem sortedByKey_perm (key : CEdge → Nat) :
    ∀ l : List CEdge, (sortedByKey key l).Perm l := by
  intro l
  induction l with
  | nil => simp [sortedByKey]
  | cons a l ih =>
    exact (insertByKey_perm key a (sortedByKey key l)).trans (ih.cons a)

/-- The stable key-sort is ascending by key. -/
theorem sortedByKey_pairwise (key : CEdge → Nat) :
    ∀ l : List CEdge, (sortedByKey key l).Pairwise (fun x y => key x ≤ key y) := by
  intro l
  induction l with
  | nil => simp [sortedByKey]
  | cons a l ih => exact insertByKey_pairwise key a (sortedByKey key l) ih

/-- Filtering an equal-key class through a key-insertion: an element whose key
belongs to the class joins the front of that class (everything placed before
it has a strictly smaller key), and every other class is untouched. -/
theorem insertByKey_filter_key (key : CEdge → Nat) (a : CEdge) (k : Nat) :
    ∀ l : List CEdge, (insertByKey key a l).filter (fun x => key x == k)
      = if key a == k
        then a :: l.filter (fun x => key x == k)
        else l.filter (fun x => key x == k) := by
  intro l
  induction l with
  | nil =>
    by_cases hk : (key a == k) = true <;> simp [insertByKey, hk]
  | cons b l ih =>
    unfold insertByKey
    by_cases h : key a ≤ key b
    · rw [if_pos h]
      by_cases hk : (key a == k) = true <;> simp [List.filter_cons, hk]
    · rw [if_neg h]
      by_cases hk : (key a == k) = true
      · have hak : key a = k := by simpa using hk
        have hbk : (key b == k) = false := by
          simp only [beq_eq_false_iff_ne, ne_eq]
          omega
        simp [List.filter_cons, ih, hk, hbk]
      · simp [List.filter_cons, ih, hk]

/-- Stability of the key-sort: each equal-key class of the output is exactly
the equal-key class of the input, in input order.  Together with
`sortedByKey_pairwise` and `sortedByKey_perm` this pins `sortedByKey` down as
the unique stable ascending sort — the behavior of Python's `sorted` with a
key function. -/
theorem sortedByKey_stable (key : CEdge → Nat) (k : Nat) :
    ∀ l : List CEdge, (sortedByKey key l).filter (fun x => key x == k)
      = l.filter (fun x => key x == k) := by
  intro l
  induction l with
  | nil => rfl
  | cons a l ih =>
    show (insertByKey key a (sortedByKey key l)).filter (fun x => key x == k)
      = (a :: l).filter (fun x => key x == k)
    rw [insertByKey_filter_key key a k (sortedByKey key l), ih, List.filter_cons]

/-- The order-preserving two-way partition fold of
`EdgeCoverageGraphVisitor.preprocess_edges` computes the two filters. -/
theorem ec_partition_eq (done : List CEdge) :
    ∀ (edges a b : List CEdge),
      edges.foldl (fun (p : List CEdge × List CEdge) e =>
          if e ∈ done then (p.1 ++ [e], p.2) else (p.1, p.2 ++ [e])) (a, b)
        = (a ++ edges.filter (fun e => decide (e ∈ done)),
           b ++ edges.filter (fun e => decide (e ∉ done))) := by
  intro edges
  induction edges with
  | nil => intro a b; simp
  | cons e rest ih =>
    intro a b
    by_cases h : e ∈ done
    · simp only [List.foldl_cons, if_pos h, ih, List.filter_cons]
      simp [h]
    · simp only [List.foldl_cons, if_neg h, ih, List.filter_cons]
      simp [h]

/-- C8: for every set of candidate edges and every state of `done_edges` and
`edge_visits`, `EdgeCoverageGraphVisitor.preprocess_edges` returns exactly the
reverse of the not-done candidates sorted ascending by visit count followed by
the done candidates sorted ascending by visit count (so after the engine's
LIFO reversal, exploration order is not-done least-visited-first, then done
least-visited-first).  The sort used is ascending by visit count, a
permutation of its input group, and stable — edges with equal visit counts
keep their candidate order, as with Python's `sorted`. -/
theorem edge_preprocess_edges_spec (st : St) (edges : List CEdge) :
    EdgeCoverageGraphVisitor.preprocess_edges st edges
        = (sortedByKey st.edge_visits (edges.filter (fun e => decide (e ∉ st.done_edges)))
            ++ sortedByKey st.edge_visits (edges.filter (fun e => decide (e ∈ st.done_edges)))).reverse
      ∧ (∀ l : List CEdge, (sortedByKey st.edge_visits l).Pairwise
            (fun a b => st.edge_visits a ≤ st.edge_visits b))
      ∧ (∀ l : List CEdge, (sortedByKey st.edge_visits l).Perm l)
      ∧ (∀ (l : List CEdge) (k : Nat),
            (sortedByKey st.edge_visits l).filter (fun e => st.edge_visits e == k)
              = l.filter (fun e => st.edge_visits e == k)) := by
  refine ⟨?_, sortedByKey_pairwise st.edge_visits, sortedByKey_perm st.edge_visits,
    fun l k => sortedByKey_stable st.edge_visits k l⟩
  unfold EdgeCoverageGraphVisitor.preprocess_edges
  rw [ec_partition_eq st.done_edges edges [] []]
  simp

/-- All-zero exploration state used for concrete evaluations of the stopping
policy. -/
def c4St : St :=
  { solver := ⟨0, 0, 0, 0⟩, num_test_cases := 0, writes := 0, table_adds := 0,
    success_path_count := 0, results_map := [], stats_per_edge := fun _ => 0,
    num_covered_edges := 0, done_edges := [], edge_visits := fun _ => 0 }

/-- C4 (code bug): the check order of `visit_result` is as claimed and an
unset cap never fires, but a cap configured as 0 is not unbounded: with the
global cap 0 and the counter still 0 the very first call answers `ABORT`
(`ge_than_not_none` uses `>=`, so 0 is reached immediately), and likewise a
per-parser-path cap of 0 answers `BACKTRACK` — contradicting the source's own
comment that `None`/0 represents no maximum. -/
theorem visit_result_zero_cap_diverges :
    ControlGraphVisitor.visit_result
        { num_test_cases := some 0, max_test_cases_per_path := none,
          do_consolidate_tables := false, incremental := false,
          max_paths_per_parser_path := none } c4St TestPathResult.SUCCESS
      = VisitResult.ABORT
    ∧ ControlGraphVisitor.visit_result
        { num_test_cases := none, max_test_cases_per_path := none,
          do_consolidate_tables := false, incremental := false,
          max_paths_per_parser_path := some 0 } c4St TestPathResult.SUCCESS
      = VisitResult.BACKTRACK
    ∧ ControlGraphVisitor.visit_result
        { num_test_cases := none, max_test_cases_per_path := none,
          do_consolidate_tables := false, incremental := false,
          max_paths_per_parser_path := none } c4St TestPathResult.SUCCESS
      = VisitResult.CONTINUE
    ∧ ControlGraphVisitor.visit_result
        { num_test_cases := none, max_test_cases_per_path := none,
          do_consolidate_tables := false, incremental := false,
          max_paths_per_parser_path := none } c4St TestPathResult.NO_PACKET_FOUND
      = VisitResult.BACKTRACK := by
  refine ⟨by decide, by decide, by decide, by decide⟩

/-- C6: when the quick pre-check reports `SUCCESS` on an incomplete control
path, `generate_test_case` returns `SUCCESS` immediately with only the
path-constraint submission performed: no test case is written, the global
test-case counter is unchanged, and no table-consolidation registration
occurs. -/
theorem quick_success_incomplete_no_output (cfg : Cfg) (inp : VisitInput) (st : St)
    (hq : inp.quick = TestPathResult.SUCCESS) (hc : inp.is_complete = false) :
    ControlGraphVisitor.generate_test_case cfg inp st
        = (GenOutcome.ok TestPathResult.SUCCESS, addPathConstraints st)
      ∧ (ControlGraphVisitor.generate_test_case cfg inp st).2.writes = st.writes
      ∧ (ControlGraphVisitor.generate_test_case cfg inp st).2.num_test_cases = st.num_test_cases
      ∧ (ControlGraphVisitor.generate_test_case cfg inp st).2.table_adds = st.table_adds := by
  have h1 : ControlGraphVisitor.generate_test_case cfg inp st
      = (GenOutcome.ok TestPathResult.SUCCESS, addPathConstraints st) := by
    unfold ControlGraphVisitor.generate_test_case
    rw [hq]
    simp [record_path_result, record_test_case, hc]
  refine ⟨h1, ?_, ?_, ?_⟩ <;> rw [h1] <;> simp [addPathConstraints]

/-- Configuration for the C6 witness. -/
def c6Cfg : Cfg :=
  { num_test_cases := none, max_test_cases_per_path := none,
    do_consolidate_tables := false, incremental := false,
    max_paths_per_parser_path := none }

/-- Visit input for the C6 witness: quick-solve reports `SUCCESS` on an
incomplete path. -/
def c6Inp : VisitInput :=
  { control_path := [⟨0, 1, 0⟩], is_complete := false,
    quick := TestPathResult.SUCCESS, gen := fun _ => TestPathResult.SUCCESS,
    vl := fun _ => true, fuel := 4 }

/-- Exploration state for the C6 witness. -/
def c6St : St :=
  { solver := ⟨0, 0, 0, 0⟩, num_test_cases := 0, writes := 0, table_adds := 0,
    success_path_count := 0, results_map := [], stats_per_edge := fun _ => 0,
    num_covered_edges := 0, done_edges := [], edge_visits := fun _ => 0 }

/-- Witness for C6: a concrete quick-`SUCCESS` incomplete call returns early
with only the constraint submission performed. -/
theorem quick_success_incomplete_no_output_witness :
    ControlGraphVisitor.generate_test_case c6Cfg c6Inp c6St
      = (GenOutcome.ok TestPathResult.SUCCESS, addPathConstraints c6St) :=
  (quick_success_incomplete_no_output c6Cfg c6Inp c6St rfl rfl).1

/-! ## Generation-loop invariants -/

/-- Head of a list with a pinned first block: appending more on the right does
not change the head. -/
theorem head?_append_singleton (l : List TestPathResult) (a : TestPathResult)
    (l' : List TestPathResult) : ((l ++ [a]) ++ l').head? = (l ++ [a]).head? := by
  cases l <;> simp

/-- Invariants of the generation loop: it performs no solver reset and no
constraint submission, its checkpoint pushes and pops balance exactly, it does
not touch the coverage bookkeeping, and the accumulated result list it returns
starts with the first iteration's classification. -/
theorem genLoop_invariants (cfg : Cfg) (inp : VisitInput) :
    ∀ (fuel i : Nat) (results : List TestPathResult) (st : St)
      (res : List TestPathResult) (st' : St),
      ControlGraphVisitor.genLoop cfg inp fuel i results st = some (res, st') →
        st'.solver.resets = st.solver.resets
      ∧ st'.solver.constraint_batches = st.solver.constraint_batches
      ∧ st'.solver.pushes + st.solver.pops = st.solver.pushes + st'.solver.pops
      ∧ st'.done_edges = st.done_edges
      ∧ st'.edge_visits = st.edge_visits
      ∧ st'.success_path_count = st.success_path_count
      ∧ res.head? = (results ++ [inp.gen i]).head? := by
  intro fuel
  induction fuel with
  | zero =>
    intro i results st res st' h
    simp [ControlGraphVisitor.genLoop] at h
  | succ fuel ih =>
    intro i results st res st' h
    simp only [ControlGraphVisitor.genLoop] at h
    repeat' split at h
    all_goals
      try (rw [Option.some.injEq, Prod.mk.injEq] at h
           obtain ⟨hres, hst⟩ := h
           subst hres hst
           refine ⟨?_, ?_, ?_, ?_, ?_, ?_, rfl⟩ <;>
             simp [solverPush, solverPop, writeTestCase, tableAddPath] <;> omega)
    all_goals
      obtain ⟨h1, h2, h3, h4, h5, h6, h7⟩ := ih _ _ _ _ _ h
    all_goals
      rw [head?_append_singleton] at h7
    all_goals
      simp [solverPush, solverPop, writeTestCase, tableAddPath] at h1 h2 h3 h4 h5 h6
    all_goals
      exact ⟨by omega, by omega, by omega, h4, h5, h6, h7⟩

/-- Shape of a normal (`ok`) return of `generate_test_case` when the quick
pre-check did not short-circuit: the returned classification is the first loop
iteration's, and the final state is the loop's state, solver-reset unless
incremental solving is configured. -/
theorem gen_tc_normal_shape (cfg : Cfg) (inp : VisitInput) (st : St) (r : TestPathResult)
    (st' : St) (hq : inp.quick ≠ TestPathResult.SUCCESS)
    (h : ControlGraphVisitor.generate_test_case cfg inp st = (GenOutcome.ok r, st')) :
    r = inp.gen 0
    ∧ ∃ res1 st1,
        ControlGraphVisitor.genLoop cfg inp inp.fuel 0 [] (addPathConstraints st)
          = some (res1, st1)
        ∧ st' = (if !cfg.incremental then solverReset st1 else st1) := by
  simp only [ControlGraphVisitor.generate_test_case] at h
  rw [if_neg (by simp [hq])] at h
  split at h
  · simp at h
  · cases hL : ControlGraphVisitor.genLoop cfg inp inp.fuel 0 [] (addPathConstraints st) with
    | none => rw [hL] at h; simp at h
    | some p =>
      obtain ⟨res1, st1⟩ := p
      rw [hL] at h
      have hinv := genLoop_invariants cfg inp inp.fuel 0 [] (addPathConstraints st) res1 st1 hL
      have hhead : res1.head? = some (inp.gen 0) := by
        have h7 := hinv.2.2.2.2.2.2
        simpa using h7
      simp only [hhead] at h
      rw [Prod.mk.injEq] at h
      obtain ⟨h1, h2⟩ := h
      rw [GenOutcome.ok.injEq] at h1
      exact ⟨h1.symm, res1, st1, rfl, h2.symm⟩

/-- C9 (amended): when incremental solving is not configured, the accumulated
solver state is fully reset on the normal return path, the one that runs the
generation loop; the early return taken when the feasibility pre-check reports
`SUCCESS` on an incomplete path performs no reset. -/
theorem generate_test_case_reset_spec :
    (∀ (cfg : Cfg) (inp : VisitInput) (st : St) (r : TestPathResult) (st' : St),
        cfg.incremental = false → inp.quick ≠ TestPathResult.SUCCESS →
        ControlGraphVisitor.generate_test_case cfg inp st = (GenOutcome.ok r, st') →
        st'.solver.resets = st.solver.resets + 1)
    ∧ (∀ (cfg : Cfg) (inp : VisitInput) (st : St),
        inp.quick = TestPathResult.SUCCESS → inp.is_complete = false →
        (ControlGraphVisitor.generate_test_case cfg inp st).2.solver.resets
          = st.solver.resets) := by
  constructor
  · intro cfg inp st r st' hinc hq h
    obtain ⟨-, res1, st1, hL, hst⟩ := gen_tc_normal_shape cfg inp st r st' hq h
    have hres := (genLoop_invariants cfg inp inp.fuel 0 [] (addPathConstraints st)
      res1 st1 hL).1
    rw [hst, hinc]
    simp [solverReset, addPathConstraints] at hres ⊢
    omega
  · intro cfg inp st hq hc
    simp only [ControlGraphVisitor.generate_test_case]
    rw [if_pos (by simp [hq])]
    rw [hq]
    simp [record_path_result, record_test_case, hc, addPathConstraints]

/-- Configuration for the C9 evaluations: incremental solving off. -/
def c9Cfg : Cfg :=
  { num_test_cases := none, max_test_cases_per_path := none,
    do_consolidate_tables := false, incremental := false,
    max_paths_per_parser_path := none }

/-- Visit input for the C9 counterexample: quick-solve `SUCCESS` on an
incomplete path. -/
def c9Inp : VisitInput :=
  { control_path := [⟨0, 1, 0⟩], is_complete := false,
    quick := TestPathResult.SUCCESS, gen := fun _ => TestPathResult.SUCCESS,
    vl := fun _ => true, fuel := 4 }

/-- Visit input for the C9 witness: the pre-check does not short-circuit and
the loop ends after one iteration with `NO_PACKET_FOUND`. -/
def c9wInp : VisitInput :=
  { control_path := [⟨0, 1, 0⟩], is_complete := true,
    quick := TestPathResult.NO_PACKET_FOUND,
    gen := fun _ => TestPathResult.NO_PACKET_FOUND,
    vl := fun _ => true, fuel := 4 }

/-- Exploration state for the C9 evaluations. -/
def c9St : St :=
  { solver := ⟨0, 0, 0, 0⟩, num_test_cases := 0, writes := 0, table_adds := 0,
    success_path_count := 0, results_map := [], stats_per_edge := fun _ => 0,
    num_covered_edges := 0, done_edges := [], edge_visits := fun _ => 0 }

/-- C9 counterexample: with incremental solving not configured, the
quick-solve early return (`SUCCESS` on an incomplete path) returns without any
solver reset, so the reset does not happen on every return path as claimed. -/
theorem generate_test_case_early_return_skips_reset :
    c9Cfg.incremental = false
    ∧ (ControlGraphVisitor.generate_test_case c9Cfg c9Inp c9St).1
        = GenOutcome.ok TestPathResult.SUCCESS
    ∧ (ControlGraphVisitor.generate_test_case c9Cfg c9Inp c9St).2.solver.resets = 0 :=
  ⟨rfl, by decide, by decide⟩

/-- Witness for the amended C9: a concrete non-short-circuited call with
incremental solving off performs exactly one solver reset. -/
theorem generate_test_case_reset_spec_witness :
    (solverReset (writeTestCase (solverPop (solverPush (addPathConstraints c9St))))).solver.resets
      = c9St.solver.resets + 1 :=
  generate_test_case_reset_spec.1 c9Cfg c9wInp c9St TestPathResult.NO_PACKET_FOUND
    (solverReset (writeTestCase (solverPop (solverPush (addPathConstraints c9St)))))
    rfl (by decide) rfl

/-- C5 (amended): the conflicting combination — table-consolidation mode with
a per-path cap other than one — is rejected by the assertion inside
`generate_test_case` on every call whose quick pre-check does not
short-circuit; the rejection happens after that call has already submitted its
path constraints (not before exploration), and a call short-circuited by a
`SUCCESS` pre-check on an incomplete path is not rejected at all. -/
theorem consolidate_cap_conflict_in_call :
    (∀ (cfg : Cfg) (inp : VisitInput) (st : St),
        cfg.do_consolidate_tables = true → cfg.max_test_cases_per_path ≠ some 1 →
        inp.quick ≠ TestPathResult.SUCCESS →
        ControlGraphVisitor.generate_test_case cfg inp st
          = (GenOutcome.assertFail, addPathConstraints st))
    ∧ (∀ (cfg : Cfg) (inp : VisitInput) (st : St),
        inp.quick = TestPathResult.SUCCESS → inp.is_complete = false →
        (ControlGraphVisitor.generate_test_case cfg inp st).1
          = GenOutcome.ok TestPathResult.SUCCESS) := by
  constructor
  · intro cfg inp st hcons hcap hq
    simp only [ControlGraphVisitor.generate_test_case]
    rw [if_neg (by simp [hq])]
    rw [if_pos (by simp [hcons, hcap])]
  · intro cfg inp st hq hc
    simp only [ControlGraphVisitor.generate_test_case]
    rw [if_pos (by simp [hq])]
    rw [hq]
    simp [record_path_result, record_test_case, hc]

/-- Configuration for the C5 evaluations: table consolidation together with a
per-path cap of 2. -/
def c5Cfg : Cfg :=
  { num_test_cases := none, max_test_cases_per_path := some 2,
    do_consolidate_tables := true, incremental := true,
    max_paths_per_parser_path := none }

/-- Visit input whose pre-check does not short-circuit. -/
def c5InpA : VisitInput :=
  { control_path := [⟨0, 1, 0⟩], is_complete := true,
    quick := TestPathResult.NO_PACKET_FOUND,
    gen := fun _ => TestPathResult.NO_PACKET_FOUND,
    vl := fun _ => true, fuel := 4 }

/-- Visit input whose pre-check short-circuits with `SUCCESS` on an incomplete
path. -/
def c5InpB : VisitInput :=
  { control_path := [⟨0, 1, 0⟩], is_complete := false,
    quick := TestPathResult.SUCCESS, gen := fun _ => TestPathResult.SUCCESS,
    vl := fun _ => true, fuel := 4 }

/-- Exploration state for the C5 evaluations. -/
def c5St : St :=
  { solver := ⟨0, 0, 0, 0⟩, num_test_cases := 0, writes := 0, table_adds := 0,
    success_path_count := 0, results_map := [], stats_per_edge := fun _ => 0,
    num_covered_edges := 0, done_edges := [], edge_visits := fun _ => 0 }

/-- C5 counterexample: with table consolidation enabled and per-path cap 2,
the conflict is not rejected before exploration: the first
`generate_test_case` call has already submitted its path constraints when the
assertion fires, and a call short-circuited by the pre-check completes with no
rejection at all. -/
theorem consolidate_cap_conflict_not_eager :
    (ControlGraphVisitor.generate_test_case c5Cfg c5InpA c5St).1 = GenOutcome.assertFail
    ∧ (ControlGraphVisitor.generate_test_case c5Cfg c5InpA c5St).2.solver.constraint_batches
        = c5St.solver.constraint_batches + 1
    ∧ (ControlGraphVisitor.generate_test_case c5Cfg c5InpB c5St).1
        = GenOutcome.ok TestPathResult.SUCCESS := by
  refine ⟨by decide, by decide, by decide⟩

/-- Witness for the amended C5: the concrete conflicting configuration is
rejected inside the call, with the path constraints already submitted. -/
theorem consolidate_cap_conflict_in_call_witness :
    ControlGraphVisitor.generate_test_case c5Cfg c5InpA c5St
      = (GenOutcome.assertFail, addPathConstraints c5St) :=
  consolidate_cap_conflict_in_call.1 c5Cfg c5InpA c5St rfl (by decide) (by decide)

/-- C7: whenever `generate_test_case` runs its bounded generation loop (the
quick pre-check did not short-circuit) and returns normally, the
`TestPathResult` it returns is the classification obtained in the first loop
iteration, regardless of how many further iterations ran or what they
produced. -/
theorem generate_test_case_first_result (cfg : Cfg) (inp : VisitInput) (st : St)
    (r : TestPathResult) (st' : St) (hq : inp.quick ≠ TestPathResult.SUCCESS)
    (h : ControlGraphVisitor.generate_test_case cfg inp st = (GenOutcome.ok r, st')) :
    r = inp.gen 0 :=
  (gen_tc_normal_shape cfg inp st r st' hq h).1

/-- Configuration for the C7 witness (incremental solving on, so the final
state is the loop's). -/
def c7Cfg : Cfg :=
  { num_test_cases := none, max_test_cases_per_path := none,
    do_consolidate_tables := false, incremental := true,
    max_paths_per_parser_path := none }

/-- Visit input for the C7 witness: the pre-check reports an inconclusive
outcome, the single loop iteration classifies `NO_PACKET_FOUND`. -/
def c7Inp : VisitInput :=
  { control_path := [⟨0, 1, 0⟩], is_complete := true,
    quick := TestPathResult.OTHER,
    gen := fun _ => TestPathResult.NO_PACKET_FOUND,
    vl := fun _ => true, fuel := 3 }

/-- Exploration state for the C7 witness. -/
def c7St : St :=
  { solver := ⟨0, 0, 0, 0⟩, num_test_cases := 0, writes := 0, table_adds := 0,
    success_path_count := 0, results_map := [], stats_per_edge := fun _ => 0,
    num_covered_edges := 0, done_edges := [], edge_visits := fun _ => 0 }

/-- Witness for C7: a concrete non-short-circuited call returns its first
iteration's classification. -/
theorem generate_test_case_first_result_witness :
    TestPathResult.NO_PACKET_FOUND = c7Inp.gen 0 :=
  generate_test_case_first_result c7Cfg c7Inp c7St TestPathResult.NO_PACKET_FOUND
    (writeTestCase (solverPop (solverPush (addPathConstraints c7St)))) (by decide) rfl

/-- C10: every iteration of the generation loop appends exactly one result
before any exit test, and the loop body runs at least once, so whenever
`generate_test_case` reaches the point after its loop the accumulated result
list is non-empty: reading `results[0]` never fails (the `indexError` outcome
is unreachable), and any completed loop returns a non-empty list. -/
theorem generate_test_case_results_nonempty :
    (∀ (cfg : Cfg) (inp : VisitInput) (st : St),
        (ControlGraphVisitor.generate_test_case cfg inp st).1 ≠ GenOutcome.indexError)
    ∧ (∀ (cfg : Cfg) (inp : VisitInput) (fuel i : Nat) (results : List TestPathResult)
        (st : St) (res : List TestPathResult) (st' : St),
        ControlGraphVisitor.genLoop cfg inp fuel i results st = some (res, st') →
        res ≠ []) := by
  have h2 : ∀ (cfg : Cfg) (inp : VisitInput) (fuel i : Nat) (results : List TestPathResult)
      (st : St) (res : List TestPathResult) (st' : St),
      ControlGraphVisitor.genLoop cfg inp fuel i results st = some (res, st') → res ≠ [] := by
    intro cfg inp fuel i results st res st' h hnil
    have h7 := (genLoop_invariants cfg inp fuel i results st res st' h).2.2.2.2.2.2
    rw [hnil] at h7
    cases results <;> simp at h7
  refine ⟨?_, h2⟩
  intro cfg inp st
  simp only [ControlGraphVisitor.generate_test_case]
  split
  · split <;> simp
  · split
    · simp
    · cases hL : ControlGraphVisitor.genLoop cfg inp inp.fuel 0 [] (addPathConstraints st) with
      | none => simp
      | some p =>
        obtain ⟨res1, st1⟩ := p
        have hne := h2 cfg inp inp.fuel 0 [] (addPathConstraints st) res1 st1 hL
        cases hh : res1.head? with
        | none => exact absurd (List.head?_eq_none_iff.mp hh) hne
        | some r => simp [hh]

/-- Configuration for the C10 witness. -/
def c10Cfg : Cfg :=
  { num_test_cases := none, max_test_cases_per_path := none,
    do_consolidate_tables := false, incremental := true,
    max_paths_per_parser_path := none }

/-- Visit input for the C10 witness. -/
def c10Inp : VisitInput :=
  { control_path := [⟨0, 1, 0⟩], is_complete := true,
    quick := TestPathResult.OTHER,
    gen := fun _ => TestPathResult.NO_PACKET_FOUND,
    vl := fun _ => true, fuel := 3 }

/-- Exploration state for the C10 witness. -/
def c10St : St :=
  { solver := ⟨0, 0, 0, 0⟩, num_test_cases := 0, writes := 0, table_adds := 0,
    success_path_count := 0, results_map := [], stats_per_edge := fun _ => 0,
    num_covered_edges := 0, done_edges := [], edge_visits := fun _ => 0 }

/-- Witness for C10: a concrete completed loop yields a non-empty result
list. -/
theorem generate_test_case_results_nonempty_witness :
    ([TestPathResult.NO_PACKET_FOUND] : List TestPathResult) ≠ [] :=
  generate_test_case_results_nonempty.2 c10Cfg c10Inp 3 0 [] c10St
    [TestPathResult.NO_PACKET_FOUND]
    (writeTestCase (solverPop (solverPush c10St))) rfl

/-! ## Checkpoint push/pop balance -/

/-- Frame of one statistics bump: only `stats_per_edge` and
`num_covered_edges` change. -/
theorem bumpPathEdgeStat_frame (s : St) (e : CEdge) :
    (ControlGraphVisitor.bumpPathEdgeStat s e).solver = s.solver
    ∧ (ControlGraphVisitor.bumpPathEdgeStat s e).done_edges = s.done_edges
    ∧ (ControlGraphVisitor.bumpPathEdgeStat s e).edge_visits = s.edge_visits := by
  unfold ControlGraphVisitor.bumpPathEdgeStat
  by_cases h : (s.stats_per_edge e == 0) = true <;> simp [h]

/-- Frame of the statistics-bump fold. -/
theorem bumpPathEdgeStat_fold_frame (l : List CEdge) :
    ∀ s : St, (l.foldl ControlGraphVisitor.bumpPathEdgeStat s).solver = s.solver
      ∧ (l.foldl ControlGraphVisitor.bumpPathEdgeStat s).done_edges = s.done_edges
      ∧ (l.foldl ControlGraphVisitor.bumpPathEdgeStat s).edge_visits = s.edge_visits := by
  induction l with
  | nil => exact fun s => ⟨rfl, rfl, rfl⟩
  | cons e l ih =>
    intro s
    rw [List.foldl_cons]
    obtain ⟨f1, f2, f3⟩ := bumpPathEdgeStat_frame s e
    obtain ⟨i1, i2, i3⟩ := ih (ControlGraphVisitor.bumpPathEdgeStat s e)
    exact ⟨i1.trans f1, i2.trans f2, i3.trans f3⟩

/-- Frame of `record_stats`: it touches neither the solver counters nor the
edge-coverage bookkeeping. -/
theorem record_stats_frame (control_path : List CEdge) (ic : Bool) (r : TestPathResult)
    (st : St) :
    (ControlGraphVisitor.record_stats control_path ic r st).solver = st.solver
    ∧ (ControlGraphVisitor.record_stats control_path ic r st).done_edges = st.done_edges
    ∧ (ControlGraphVisitor.record_stats control_path ic r st).edge_visits = st.edge_visits := by
  obtain ⟨f1, f2, f3⟩ := bumpPathEdgeStat_fold_frame control_path st
  unfold ControlGraphVisitor.record_stats
  by_cases h1 : (r == TestPathResult.SUCCESS && ic) = true <;>
    by_cases h2 : record_path_result r ic = true <;>
    simp [h1, h2, f1, f2, f3]

/-- Frame of a normal `generate_test_case` return: the checkpoint pushes it
performs are matched exactly by its own pops, and the edge-coverage
bookkeeping is untouched. -/
theorem gen_tc_ok_frame (cfg : Cfg) (inp : VisitInput) (st : St) (r : TestPathResult)
    (st' : St)
    (h : ControlGraphVisitor.generate_test_case cfg inp st = (GenOutcome.ok r, st')) :
    st'.solver.pushes + st.solver.pops = st.solver.pushes + st'.solver.pops
    ∧ st'.done_edges = st.done_edges
    ∧ st'.edge_visits = st.edge_visits := by
  by_cases hq : inp.quick = TestPathResult.SUCCESS
  · unfold ControlGraphVisitor.generate_test_case at h
    rw [if_pos (by simp [hq])] at h
    split at h
    · simp at h
    · rw [Prod.mk.injEq] at h
      obtain ⟨-, h2⟩ := h
      rw [← h2]
      simp [addPathConstraints]
  · obtain ⟨-, res1, st1, hL, hst⟩ := gen_tc_normal_shape cfg inp st r st' hq h
    obtain ⟨-, -, h3, h4, h5, -, -⟩ :=
      genLoop_invariants cfg inp inp.fuel 0 [] (addPathConstraints st) res1 st1 hL
    simp [addPathConstraints] at h3 h4 h5
    rw [hst]
    by_cases hi : (!cfg.incremental) = true
    · rw [if_pos hi]
      exact ⟨by simp [solverReset]; omega, by simp [solverReset, h4], by simp [solverReset, h5]⟩
    · rw [if_neg hi]
      exact ⟨by omega, h4, h5⟩

/-- Frame of the visit-count bump fold: only `edge_visits` changes. -/
theorem bumpVisit_fold_frame (l : List CEdge) :
    ∀ s : St, ((l.foldl EdgeCoverageGraphVisitor.bumpVisit s)).solver = s.solver
      ∧ ((l.foldl EdgeCoverageGraphVisitor.bumpVisit s)).done_edges = s.done_edges := by
  induction l with
  | nil => intro s; exact ⟨rfl, rfl⟩
  | cons e l ih =>
    intro s
    rw [List.foldl_cons]
    exact ⟨((ih _).1.trans rfl), ((ih _).2.trans rfl)⟩

/-- One `PathCoverageGraphVisitor.visit` call leaves the solver's checkpoint
stack exactly one push deeper: its push count grows by one more than its pop
count. -/
theorem pc_visit_balance (cfg : Cfg) (inp : VisitInput) (st : St) (vr : VisitResult)
    (st' : St) (h : PathCoverageGraphVisitor.visit cfg inp st = some (vr, st')) :
    st'.solver.pushes + st.solver.pops = st.solver.pushes + st'.solver.pops + 1 := by
  simp only [PathCoverageGraphVisitor.visit] at h
  split at h
  · rename_i result st1 hg
    simp only [Option.some.injEq, Prod.mk.injEq] at h
    obtain ⟨-, h2⟩ := h
    have hb := (gen_tc_ok_frame cfg inp (solverPush st) result st1 hg).1
    have hs := (record_stats_frame inp.control_path inp.is_complete result st1).1
    rw [← h2, hs]
    simp [solverPush] at hb
    omega
  · simp at h

/-- One `EdgeCoverageGraphVisitor.visit` call leaves the solver's checkpoint
stack exactly one push deeper, on the skip path included. -/
theorem ec_visit_balance (graph : Nat → List CEdge) (cfg : Cfg) (inp : VisitInput)
    (st : St) (vr : VisitResult) (st' : St)
    (h : EdgeCoverageGraphVisitor.visit graph cfg inp st = some (vr, st')) :
    st'.solver.pushes + st.solver.pops = st.solver.pushes + st'.solver.pops + 1 := by
  simp only [EdgeCoverageGraphVisitor.visit] at h
  split at h
  · simp at h
  · rename_i last hlast
    split at h
    · simp only [Option.some.injEq, Prod.mk.injEq] at h
      obtain ⟨-, h2⟩ := h
      rw [← h2]
      simp [solverPush]
      omega
    · split at h
      · rename_i result st1 hg
        have hb := (gen_tc_ok_frame cfg inp (solverPush st) result st1 hg).1
        have hs := (record_stats_frame inp.control_path inp.is_complete result st1).1
        split at h
        · split at h
          · simp at h
          · simp only [Option.some.injEq, Prod.mk.injEq] at h
            obtain ⟨-, h2⟩ := h
            rw [← h2]
            have hf := (bumpVisit_fold_frame inp.control_path
              (ControlGraphVisitor.record_stats inp.control_path inp.is_complete result st1)).1
            simp only [hf, hs]
            simp [solverPush] at hb
            omega
        · simp only [Option.some.injEq, Prod.mk.injEq] at h
          obtain ⟨-, h2⟩ := h
          rw [← h2, hs]
          simp [solverPush] at hb
          omega
      · simp at h

/-- Balance of an alternating path-coverage run: the total pushes performed
equal the total pops. -/
theorem pcRun_balance (cfg : Cfg) :
    ∀ (inputs : List VisitInput) (st st' : St), pcRun cfg inputs st = some st' →
      st'.solver.pushes + st.solver.pops = st.solver.pushes + st'.solver.pops := by
  intro inputs
  induction inputs with
  | nil =>
    intro st st' h
    simp only [pcRun, Option.some.injEq] at h
    rw [← h]
  | cons inp rest ih =>
    intro st st' h
    simp only [pcRun] at h
    cases hv : PathCoverageGraphVisitor.visit cfg inp st with
    | none => rw [hv] at h; simp at h
    | some p =>
      obtain ⟨vr, st1⟩ := p
      rw [hv] at h
      simp only [] at h
      have h1 := pc_visit_balance cfg inp st vr st1 hv
      have h2 := ih (PathCoverageGraphVisitor.backtrack st1) st' h
      simp [PathCoverageGraphVisitor.backtrack, solverPop] at h2
      omega

/-- Balance of an alternating edge-coverage run: the total pushes performed
equal the total pops. -/
theorem ecRun_balance (graph : Nat → List CEdge) (cfg : Cfg) :
    ∀ (inputs : List VisitInput) (st st' : St), ecRun graph cfg inputs st = some st' →
      st'.solver.pushes + st.solver.pops = st.solver.pushes + st'.solver.pops := by
  intro inputs
  induction inputs with
  | nil =>
    intro st st' h
    simp only [ecRun, Option.some.injEq] at h
    rw [← h]
  | cons inp rest ih =>
    intro st st' h
    simp only [ecRun] at h
    cases hv : EdgeCoverageGraphVisitor.visit graph cfg inp st with
    | none => rw [hv] at h; simp at h
    | some p =>
      obtain ⟨vr, st1⟩ := p
      rw [hv] at h
      simp only [] at h
      have h1 := ec_visit_balance graph cfg inp st vr st1 hv
      have h2 := ih (EdgeCoverageGraphVisitor.backtrack st1) st' h
      simp [EdgeCoverageGraphVisitor.backtrack, solverPop] at h2
      omega

/-- C1: for both coverage strategies, every `visit` call leaves the solver one
checkpoint push ahead (its internal randomization pushes are matched by its
own pops) and every `backtrack` pops exactly one checkpoint and pushes none;
consequently, over any alternating sequence of `visit`/`backtrack` calls —
the edge-coverage skip path included, which answers `BACKTRACK` with its
checkpoint already pushed — the number of pushes performed equals the number
of pops performed. -/
theorem checkpoint_push_pop_balance :
    (∀ (cfg : Cfg) (inp : VisitInput) (st : St) (vr : VisitResult) (st' : St),
        PathCoverageGraphVisitor.visit cfg inp st = some (vr, st') →
        st'.solver.pushes + st.solver.pops = st.solver.pushes + st'.solver.pops + 1)
    ∧ (∀ st : St, (PathCoverageGraphVisitor.backtrack st).solver.pops = st.solver.pops + 1
        ∧ (PathCoverageGraphVisitor.backtrack st).solver.pushes = st.solver.pushes)
    ∧ (∀ (graph : Nat → List CEdge) (cfg : Cfg) (inp : VisitInput) (st : St)
        (vr : VisitResult) (st' : St),
        EdgeCoverageGraphVisitor.visit graph cfg inp st = some (vr, st') →
        st'.solver.pushes + st.solver.pops = st.solver.pushes + st'.solver.pops + 1)
    ∧ (∀ st : St, (EdgeCoverageGraphVisitor.backtrack st).solver.pops = st.solver.pops + 1
        ∧ (EdgeCoverageGraphVisitor.backtrack st).solver.pushes = st.solver.pushes)
    ∧ (∀ (cfg : Cfg) (inputs : List VisitInput) (st st' : St),
        pcRun cfg inputs st = some st' →
        st'.solver.pushes + st.solver.pops = st.solver.pushes + st'.solver.pops)
    ∧ (∀ (graph : Nat → List CEdge) (cfg : Cfg) (inputs : List VisitInput) (st st' : St),
        ecRun graph cfg inputs st = some st' →
        st'.solver.pushes + st.solver.pops = st.solver.pushes + st'.solver.pops) :=
  ⟨pc_visit_balance,
   fun _ => ⟨rfl, rfl⟩,
   ec_visit_balance,
   fun _ => ⟨rfl, rfl⟩,
   fun cfg inputs st st' => pcRun_balance cfg inputs st st',
   fun graph cfg inputs st st' => ecRun_balance graph cfg inputs st st'⟩

/-- Configuration for the C1 witness. -/
def c1Cfg : Cfg :=
  { num_test_cases := none, max_test_cases_per_path := none,
    do_consolidate_tables := false, incremental := true,
    max_paths_per_parser_path := none }

/-- Visit input for the C1 witness. -/
def c1Inp : VisitInput :=
  { control_path := [⟨0, 1, 0⟩], is_complete := false,
    quick := TestPathResult.SUCCESS, gen := fun _ => TestPathResult.SUCCESS,
    vl := fun _ => true, fuel := 4 }

/-- Exploration state for the C1 witness. -/
def c1St : St :=
  { solver := ⟨0, 0, 0, 0⟩, num_test_cases := 0, writes := 0, table_adds := 0,
    success_path_count := 0, results_map := [], stats_per_edge := fun _ => 0,
    num_covered_edges := 0, done_edges := [], edge_visits := fun _ => 0 }

/-- Witness for C1: a concrete one-element alternating run balances its pushes
and pops. -/
theorem checkpoint_push_pop_balance_witness :
    (solverPop (addPathConstraints (solverPush c1St))).solver.pushes + c1St.solver.pops
      = c1St.solver.pushes + (solverPop (addPathConstraints (solverPush c1St))).solver.pops :=
  checkpoint_push_pop_balance.2.2.2.2.1 c1Cfg [c1Inp] c1St
    (solverPop (addPathConstraints (solverPush c1St))) rfl

/-! ## Monotonicity of the done-edge set -/

/-- Membership after set-insertion into `done_edges`. -/
theorem doneAdd_mem (done : List CEdge) (a x : CEdge) :
    x ∈ EdgeCoverageGraphVisitor.doneAdd done a ↔ x = a ∨ x ∈ done := by
  unfold EdgeCoverageGraphVisitor.doneAdd
  by_cases h : a ∈ done
  · rw [if_pos h]
    constructor
    · exact Or.inr
    · rintro (rfl | hx)
      · exact h
      · exact hx
  · rw [if_neg h]
    exact List.mem_cons

/-- The backward propagation walk never removes a done edge. -/
theorem markDone_mono (graph : Nat → List CEdge) :
    ∀ (l done : List CEdge) (x : CEdge), x ∈ done →
      x ∈ EdgeCoverageGraphVisitor.markDone graph l done := by
  intro l
  induction l with
  | nil =>
    intro done x hx
    simpa [EdgeCoverageGraphVisitor.markDone] using hx
  | cons e rest ih =>
    intro done x hx
    unfold EdgeCoverageGraphVisitor.markDone
    apply ih
    by_cases h : ((graph e.dst).all (fun ce => decide (ce ∈ done))) = true
    · rw [if_pos h]
      exact (doneAdd_mem done e x).mpr (Or.inr hx)
    · rw [if_neg h]
      exact hx

/-- Characterization of the edges the backward walk adds: a new edge comes
from the walked list and all outgoing edges of its destination are done in the
walk's final set. -/
theorem markDone_new (graph : Nat → List CEdge) :
    ∀ (l done : List CEdge) (x : CEdge), x ∈ EdgeCoverageGraphVisitor.markDone graph l done →
      x ∈ done
      ∨ (x ∈ l ∧ ∀ ce ∈ graph x.dst, ce ∈ EdgeCoverageGraphVisitor.markDone graph l done) := by
  intro l
  induction l with
  | nil =>
    intro done x hx
    left
    simpa [EdgeCoverageGraphVisitor.markDone] using hx
  | cons e rest ih =>
    intro done x hx
    unfold EdgeCoverageGraphVisitor.markDone at hx ⊢
    by_cases h : ((graph e.dst).all (fun ce => decide (ce ∈ done))) = true
    · rw [if_pos h] at hx ⊢
      rcases ih (EdgeCoverageGraphVisitor.doneAdd done e) x hx with hx' | ⟨hmem, hch⟩
      · rcases (doneAdd_mem done e x).mp hx' with rfl | hdone
        · right
          refine ⟨List.mem_cons_self x rest, ?_⟩
          intro ce hce
          have hce_done : ce ∈ done :=
            of_decide_eq_true (List.all_eq_true.mp h ce hce)
          exact markDone_mono graph rest _ ce
            ((doneAdd_mem done x ce).mpr (Or.inr hce_done))
        · exact Or.inl hdone
      · exact Or.inr ⟨List.mem_cons_of_mem e hmem, hch⟩
    · rw [if_neg h] at hx ⊢
      rcases ih done x hx with hx' | ⟨hmem, hch⟩
      · exact Or.inl hx'
      · exact Or.inr ⟨List.mem_cons_of_mem e hmem, hch⟩

/-- C3: `done_edges` is monotonic — neither `visit` nor `backtrack` ever
removes an edge — and `visit` adds an edge only when its generation outcome is
a recordable `SUCCESS` on a complete control path, the new edge being either
the path's final edge or a non-terminal path edge all of whose destination
node's outgoing edges are done. -/
theorem ec_done_edges_update :
    (∀ (graph : Nat → List CEdge) (cfg : Cfg) (inp : VisitInput) (st : St)
        (vr : VisitResult) (st' : St),
        EdgeCoverageGraphVisitor.visit graph cfg inp st = some (vr, st') →
        (∀ e, e ∈ st.done_edges → e ∈ st'.done_edges)
        ∧ (∀ e, e ∈ st'.done_edges → e ∉ st.done_edges →
            inp.is_complete = true
            ∧ record_test_case TestPathResult.SUCCESS inp.is_complete = true
            ∧ (∃ st1 : St, ControlGraphVisitor.generate_test_case cfg inp (solverPush st)
                = (GenOutcome.ok TestPathResult.SUCCESS, st1))
            ∧ (inp.control_path.getLast? = some e
               ∨ (e ∈ inp.control_path.dropLast
                  ∧ ∀ ce ∈ graph e.dst, ce ∈ st'.done_edges))))
    ∧ (∀ st : St, (EdgeCoverageGraphVisitor.backtrack st).done_edges = st.done_edges) := by
  constructor
  · intro graph cfg inp st vr st' h
    simp only [EdgeCoverageGraphVisitor.visit] at h
    split at h
    · simp at h
    · rename_i last hlast
      split at h
      · simp only [Option.some.injEq, Prod.mk.injEq] at h
        obtain ⟨-, h2⟩ := h
        rw [← h2]
        exact ⟨fun e he => he, fun e he hne => absurd he hne⟩
      · split at h
        · rename_i result st1 hg
          have hfrG := gen_tc_ok_frame cfg inp (solverPush st) result st1 hg
          have hfrS := record_stats_frame inp.control_path inp.is_complete result st1
          split at h
          · rename_i hgate
            split at h
            · simp at h
            · rename_i hic
              simp only [Option.some.injEq, Prod.mk.injEq] at h
              obtain ⟨-, h2⟩ := h
              have hic' : inp.is_complete = true := by
                cases hb : inp.is_complete
                · exact absurd (by simp [hb]) hic
                · rfl
              have hres : result = TestPathResult.SUCCESS := by
                have := (Bool.and_eq_true _ _).mp hgate
                exact eq_of_beq this.2
              have hde' : (EdgeCoverageGraphVisitor.doneAdd
                  (List.foldl EdgeCoverageGraphVisitor.bumpVisit
                    (ControlGraphVisitor.record_stats inp.control_path inp.is_complete
                      result st1) inp.control_path).done_edges last)
                  = EdgeCoverageGraphVisitor.doneAdd st.done_edges last := by
                rw [(bumpVisit_fold_frame inp.control_path _).2, hfrS.2.1, hfrG.2.1]
                rfl
              have hde : st'.done_edges = EdgeCoverageGraphVisitor.markDone graph
                  inp.control_path.dropLast.reverse
                  (EdgeCoverageGraphVisitor.doneAdd st.done_edges last) := by
                rw [← h2, ← hde']
              constructor
              · intro e he
                rw [hde]
                exact markDone_mono graph _ _ e
                  ((doneAdd_mem st.done_edges last e).mpr (Or.inr he))
              · intro e he hne
                rw [hde] at he
                refine ⟨hic', by rw [hic']; rfl, ⟨st1, by rw [← hres]; exact hg⟩, ?_⟩
                rcases markDone_new graph _ _ e he with hadd | ⟨hwalk, hch⟩
                · rcases (doneAdd_mem st.done_edges last e).mp hadd with rfl | hdone
                  · exact Or.inl hlast
                  · exact absurd hdone hne
                · refine Or.inr ⟨List.mem_reverse.mp hwalk, ?_⟩
                  intro ce hce
                  rw [hde]
                  exact hch ce hce
          · simp only [Option.some.injEq, Prod.mk.injEq] at h
            obtain ⟨-, h2⟩ := h
            have hde : st'.done_edges = st.done_edges := by
              rw [← h2, hfrS.2.1, hfrG.2.1]
              rfl
            exact ⟨fun e he => by rw [hde]; exact he,
              fun e he hne => absurd (by rw [← hde]; exact he) hne⟩
        · simp at h
  · intro st
    rfl

/-- Control graph for the C3 witness. -/
def c3Graph : Nat → List CEdge := fun _ => []

/-- Configuration for the C3 witness. -/
def c3Cfg : Cfg :=
  { num_test_cases := none, max_test_cases_per_path := none,
    do_consolidate_tables := false, incremental := true,
    max_paths_per_parser_path := none }

/-- The edge of the C3 witness. -/
def c3Edge : CEdge := ⟨0, 1, 0⟩

/-- Visit input for the C3 witness: a one-edge path whose final edge is
already done and fully visited, so the visit takes the skip path. -/
def c3Inp : VisitInput :=
  { control_path := [c3Edge], is_complete := true,
    quick := TestPathResult.OTHER, gen := fun _ => TestPathResult.OTHER,
    vl := fun _ => true, fuel := 3 }

/-- Exploration state for the C3 witness. -/
def c3St : St :=
  { solver := ⟨0, 0, 0, 0⟩, num_test_cases := 0, writes := 0, table_adds := 0,
    success_path_count := 0, results_map := [], stats_per_edge := fun _ => 0,
    num_covered_edges := 0, done_edges := [c3Edge], edge_visits := fun _ => 1 }

/-- Witness for C3: across a concrete skip-path visit, an edge already done
stays done. -/
theorem ec_done_edges_update_witness :
    c3Edge ∈ (solverPush c3St).done_edges :=
  ((ec_done_edges_update.1 c3Graph c3Cfg c3Inp c3St VisitResult.BACKTRACK (solverPush c3St)
    rfl).1) c3Edge (by decide)
